import Mathlib

/-!
Verification of the StreamPulse probing core (`src/version-2.2/monitor.py`,
with the table-naming helper shared by `src/webgui.py`).

The embedding below translates the scheduler, lane round-robin, probe
classifiers, backoff state machine and configuration reconciliation into
pure Lean functions.  Machine floats that only ever hold exact small
ratios (heartbeat targets, backoff delays, monotonic timestamps) are
modelled as rationals; Python integers as `ℤ`/`ℕ`; Python's substring
test `in` as infix on the character lists of the strings.
-/

namespace StreamPulse

/-- Python's `needle in hay` substring test. -/
def strContains (hay needle : String) : Bool :=
  decide (needle.data <:+: hay.data)

/-- Python's `str.lower()`, characterwise. -/
def pyLower (s : String) : String :=
  ⟨s.data.map Char.toLower⟩

/-- `url.lower().startswith("rtsp://")` from `Stream.__init__`. -/
def url_is_rtsp (url : String) : Bool :=
  decide ("rtsp://".data <+: (pyLower url).data)

/-- Per-endpoint mutable state, from `class Stream` (monitor.py lines 208-215):
name, url, protocol family flag, failure streak, backoff deadline. -/
structure Stream where
  name : String
  url : String
  is_rtsp : Bool
  fails : ℕ
  backoff_until : ℚ
deriving DecidableEq

/-- `Stream.__init__`: a freshly created endpoint has `fails = 0` and
`backoff_until = 0.0`. -/
def mkStream (name url : String) : Stream :=
  { name := name, url := url, is_rtsp := url_is_rtsp url, fails := 0, backoff_until := 0 }

/-- A lane: list of endpoints of one protocol family plus a round-robin
cursor, from `class Lane` (monitor.py lines 217-234). -/
structure Lane where
  kind : String
  items : List Stream
  i : ℕ
deriving DecidableEq

/-- The eligibility test `now >= s.backoff_until` used inside `Lane.next_rr`. -/
def eligible (now : ℚ) (s : Stream) : Bool :=
  decide (s.backoff_until ≤ now)

/-- The `for _ in range(len(self.items))` loop body of `Lane.next_rr`:
read `items[i]`, advance the cursor modulo the length, return the stream
if its backoff deadline has passed, otherwise keep scanning; the fuel is
the number of loop iterations left. -/
def next_rr_go (items : List Stream) (now : ℚ) : ℕ → ℕ → Option Stream × ℕ
  | i, 0 => (none, i)
  | i, fuel + 1 =>
    match items[i]? with
    | none => (none, i)
    | some s =>
      let i' := (i + 1) % items.length
      if eligible now s then (some s, i') else next_rr_go items now i' fuel

/-- `Lane.next_rr` (monitor.py lines 224-234): under the lane lock, return
`None` on an empty lane, else scan at most one full lap starting at the
cursor. -/
def next_rr (lane : Lane) (now : ℚ) : Option Stream × Lane :=
  if lane.items.isEmpty then (none, lane)
  else
    let p := next_rr_go lane.items now lane.i lane.items.length
    (p.1, { lane with i := p.2 })

/-- `k` successive `next_rr` calls on one lane (the lane state threads
through; endpoint state is not touched between calls), collecting the
returned endpoints. -/
def rrRun (now : ℚ) : Lane → ℕ → List (Option Stream) × Lane
  | lane, 0 => ([], lane)
  | lane, k + 1 =>
    let p := next_rr lane now
    let q := rrRun now p.2 k
    (p.1 :: q.1, q.2)

/-- Proof scaffold: first eligible element of a list together with its
index. -/
def scanElig (now : ℚ) : List Stream → Option (Stream × ℕ)
  | [] => none
  | s :: rest =>
    if eligible now s then some (s, 0)
    else (scanElig now rest).map (fun p => (p.1, p.2 + 1))

/-- `MAX_WORKERS_PER_TYPE` (env default "32"). -/
def MAX_WORKERS_PER_TYPE : ℤ := 32

/-- `Scheduler.workers_and_delay` (monitor.py lines 274-281): effective
heartbeat `H = max(5, heartbeat_seconds)`; `(0, 1.0)` for an empty lane;
otherwise `W = max(1, min(ceil(n/H), MAX_WORKERS_PER_TYPE))` and
`delay = max(0.05, W / (n/H))`. -/
def workers_and_delay (n : ℕ) (heartbeat : ℤ) : ℤ × ℚ :=
  let H : ℤ := max 5 heartbeat
  if n = 0 then (0, 1)
  else
    let target : ℚ := (n : ℚ) / (H : ℚ)
    let W : ℤ := max 1 (min ⌈target⌉ MAX_WORKERS_PER_TYPE)
    (W, max (1 / 20 : ℚ) ((W : ℚ) / target))

/-- Modelled from the spec's words (for comparison with
`workers_and_delay`): heartbeat clamped to `[2, 3600]`, desired rate
`R = N / H`. -/
def spec_R (n : ℕ) (heartbeat : ℤ) : ℚ :=
  (n : ℚ) / ((min 3600 (max 2 heartbeat) : ℤ) : ℚ)

/-- Modelled from the spec's words: `W = clamp(ceil(R), 1, MAX_WORKERS)`
for a nonempty lane, else `0`. -/
def spec_W (n : ℕ) (heartbeat : ℤ) : ℤ :=
  if n = 0 then 0 else max 1 (min ⌈spec_R n heartbeat⌉ MAX_WORKERS_PER_TYPE)

/-- Modelled from the spec's words: per-worker delay exactly `W / R`. -/
def spec_D (n : ℕ) (heartbeat : ℤ) : ℚ :=
  ((spec_W n heartbeat : ℤ) : ℚ) / spec_R n heartbeat

/-- What the network hands `probe_rtsp`: a response text within the
timeouts, a timeout, or a connection error. -/
inductive RtspEvent where
  | response (txt : String)
  | timeout
  | connError (msg : String)
deriving DecidableEq

/-- `probe_rtsp` (monitor.py lines 153-178): substring classification of
the DESCRIBE response, in source order; timeouts and connection errors
map to FAIL.  `lat` is the measured wall-clock latency in ms. -/
def probe_rtsp (ev : RtspEvent) (lat : ℕ) : Bool × String × ℕ :=
  match ev with
  | .timeout => (false, "timeout", lat)
  | .connError e => (false, "error:" ++ e, lat)
  | .response txt =>
    if strContains txt "RTSP/1.0 200" then (true, "RTSP 200", lat)
    else if strContains txt "RTSP/1.0 401" then (true, "RTSP 401 Unauthorized", lat)
    else if strContains txt "RTSP/1.0 403" then (true, "RTSP 403 Forbidden", lat)
    else if strContains txt "RTSP/1.0 404" then (true, "RTSP 404 Not Found", lat)
    else if strContains txt "RTSP/1.0 454" then (true, "RTSP 454 Session Not Found", lat)
    else (false, "RTSP not 200", lat)

/-- Result of the HEAD attempt inside `probe_http`: a status code, or any
exception (including a HEAD timeout, which the inner `except Exception`
catches, triggering the GET fallback). -/
inductive HeadResult where
  | status (code : ℕ)
  | failed
deriving DecidableEq

/-- Result of the fallback GET (which reads only a 64-byte body prefix):
a status code, a timeout, or a connection error. -/
inductive GetResult where
  | status (code : ℕ)
  | timeout
  | connError (msg : String)
deriving DecidableEq

/-- `probe_http` (monitor.py lines 180-194): try HEAD; on any HEAD
failure fall back to the tiny GET; success is `200 <= status < 400`;
a GET timeout escapes to the outer handler as FAIL/"timeout", any other
error as FAIL/"error:...". -/
def probe_http (head : HeadResult) (get : GetResult) (latHead latGet : ℕ) :
    Bool × String × ℕ :=
  match head with
  | .status c => (decide (200 ≤ c ∧ c < 400), "HTTP " ++ toString c, latHead)
  | .failed =>
    match get with
    | .status c => (decide (200 ≤ c ∧ c < 400), "HTTP " ++ toString c, latGet)
    | .timeout => (false, "timeout", latGet)
    | .connError e => (false, "error:" ++ e, latGet)

/-- `BACKOFF_BASE` (env default "5.0"). -/
def BACKOFF_BASE : ℚ := 5

/-- The outcome-application step of `worker_loop` (monitor.py lines
303-311): on success reset the streak and deadline; on failure bump the
streak, then back off by `min(90.0, BACKOFF_BASE * 2 ** min(5, fails))`
from the current monotonic time. -/
def apply_outcome (s : Stream) (ok : Bool) (now : ℚ) : Stream :=
  if ok then { s with fails := 0, backoff_until := 0 }
  else
    let f := s.fails + 1
    let back := BACKOFF_BASE * 2 ^ min 5 f
    { s with fails := f, backoff_until := now + min 90 back }

/-- Outcome of one probe cycle: final outcome flag, final classification,
and whether the `one_frame` fallback was invoked. -/
structure CycleResult where
  ok : Bool
  msg : String
  fallback_used : Bool
deriving DecidableEq

/-- The fallback step of `worker_loop` (monitor.py lines 299-301): after
the light probe returns `(ok, msg)`, if it failed and the endpoint's
streak (read before this cycle's update) is at least 3, run `one_frame`
and, when the fallback succeeds, override the cycle's outcome and
message with it. -/
def worker_cycle (ok : Bool) (msg : String) (fails : ℕ)
    (fb_ok : Bool) (fb_msg : String) : CycleResult :=
  if !ok ∧ 3 ≤ fails then
    if fb_ok then ⟨true, fb_msg, true⟩ else ⟨ok, msg, true⟩
  else ⟨ok, msg, false⟩

/-- The status string `worker_loop` hands to `record`. -/
def record_status (ok : Bool) : String :=
  if ok then "ok" else "fail"

/-- The configuration fields `monitor.py` reads. -/
structure Cfg where
  heartbeat : ℤ
  tz : String
  streams : List (String × String)
deriving DecidableEq

/-- What the config file yields on one read: a parsed mapping whose
fields may each be missing, or a YAML parse/read failure. -/
inductive CfgSource where
  | content (heartbeat : Option ℤ) (tz : Option String)
      (streams : Option (List (String × String)))
  | malformed (err : String)
deriving DecidableEq

/-- `read_cfg` (monitor.py lines 104-112): fill in the defaults
(`heartbeat_seconds: 10`, `timezone: "UTC"`, `streams: []`) — but there
is no exception handler, so a YAML error propagates to the caller. -/
def read_cfg : CfgSource → Except String Cfg
  | .malformed e => .error e
  | .content h t s => .ok ⟨h.getD 10, t.getD "UTC", s.getD []⟩

/-- `load_config_with_mqtt_support` (monitor.py lines 29-57), used only
by `Scheduler.__init__`: the same read, but any exception is caught and
replaced with the built-in defaults (heartbeat 20). -/
def load_config_with_mqtt_support : CfgSource → Cfg
  | .malformed _ => ⟨20, "UTC", []⟩
  | .content h t s => ⟨h.getD 20, t.getD "UTC", s.getD []⟩

/-- The in-place endpoint update done for a name present in both the old
state and the new configuration (`Scheduler.reloader`): the url and the
family flag are overwritten, `fails` and `backoff_until` are kept. -/
def update_entry (u : String) (s : Stream) : Stream :=
  { s with url := u, is_rtsp := url_is_rtsp u }

/-- The `for s in self.cfg["streams"]` loop of `Scheduler.reloader`
(monitor.py lines 260-267) over the name-keyed state dict: update an
existing entry in place, or append a fresh `Stream`. -/
def apply_updates : List Stream → List (String × String) → List Stream
  | state, [] => state
  | state, (n, u) :: rest =>
    let state' :=
      if state.any (fun s => s.name == n) then
        state.map (fun s => if s.name == n then update_entry u s else s)
      else state ++ [mkStream n u]
    apply_updates state' rest

/-- The full reconciliation of `Scheduler.reloader` (monitor.py lines
259-271): apply updates/additions, then drop every entry whose name is
absent from the new configuration. -/
def reconcile (state : List Stream) (streams : List (String × String)) :
    List Stream :=
  (apply_updates state streams).filter
    (fun s => streams.any (fun p => p.1 == s.name))

/-- Dict lookup by endpoint name in the state. -/
def findName (l : List Stream) (n : String) : Option Stream :=
  l.find? (fun s => s.name == n)

/-- Lookup of an endpoint's url in the incoming configuration list. -/
def lookupUrl (streams : List (String × String)) (n : String) : Option String :=
  (streams.find? (fun p => p.1 == n)).map Prod.snd

/-- One iteration of `Scheduler.reloader` (monitor.py lines 251-272):
`new = read_cfg()` — a parse failure propagates out of the coroutine
(killing the reload task); on success, reconcile only when the
configuration changed. -/
def reloader_tick (cfg : Cfg) (state : List Stream) (src : CfgSource) :
    Except String (Cfg × List Stream) :=
  match read_cfg src with
  | .error e => .error e
  | .ok new =>
    .ok (if new = cfg then (cfg, state) else (new, reconcile state new.streams))

/-- Python's `str.strip()` (whitespace at both ends). -/
def pyStrip (s : String) : String :=
  ⟨((s.data.dropWhile Char.isWhitespace).reverse.dropWhile Char.isWhitespace).reverse⟩

/-- The `safe[0].isalpha() or safe[0] == "_"` leading-character test of
`tname`; `False` on the empty string, folding in Python's `not safe`. -/
def ident_head_ok : List Char → Bool
  | [] => false
  | c :: _ => c.isAlpha || c = '_'

/-- `tname` (monitor.py lines 114-118): keep alphanumerics and
underscores, replace everything else with `_`, prepend `t_` when the
result is empty or starts badly, then prefix `log_`.  ASCII
alphanumerics model Python's `str.isalnum`. -/
def tname (name : String) : String :=
  let stripped := pyStrip name
  let safe := String.mk (stripped.data.map
    (fun ch => if ch.isAlphanum || ch = '_' then ch else '_'))
  let safe2 := if ident_head_ok safe.data then safe else "t_" ++ safe
  "log_" ++ safe2

/-- `table_name` (webgui.py lines 24-28): textually identical to
`tname`. -/
def table_name (name : String) : String :=
  let stripped := pyStrip name
  let safe := String.mk (stripped.data.map
    (fun ch => if ch.isAlphanum || ch = '_' then ch else '_'))
  let safe2 := if ident_head_ok safe.data then safe else "t_" ++ safe
  "log_" ++ safe2

/-! ## C2 — stream-control (RTSP) probe classification -/

/-- C2: for every handshake response within the timeouts, a 200 status
yields OK/"RTSP 200"; 401/403/404/454 yield OK with a distinguishing
classification naming the status (checked in source order); any other or
malformed response yields FAIL "RTSP not 200"; a timeout yields
FAIL/"timeout" and a connection error FAIL/"error:...". -/
theorem probe_rtsp_classification (txt e : String) (lat : ℕ) :
    (strContains txt "RTSP/1.0 200" = true →
      probe_rtsp (.response txt) lat = (true, "RTSP 200", lat)) ∧
    (strContains txt "RTSP/1.0 200" = false →
      strContains txt "RTSP/1.0 401" = true →
      probe_rtsp (.response txt) lat = (true, "RTSP 401 Unauthorized", lat)) ∧
    (strContains txt "RTSP/1.0 200" = false →
      strContains txt "RTSP/1.0 401" = false →
      strContains txt "RTSP/1.0 403" = true →
      probe_rtsp (.response txt) lat = (true, "RTSP 403 Forbidden", lat)) ∧
    (strContains txt "RTSP/1.0 200" = false →
      strContains txt "RTSP/1.0 401" = false →
      strContains txt "RTSP/1.0 403" = false →
      strContains txt "RTSP/1.0 404" = true →
      probe_rtsp (.response txt) lat = (true, "RTSP 404 Not Found", lat)) ∧
    (strContains txt "RTSP/1.0 200" = false →
      strContains txt "RTSP/1.0 401" = false →
      strContains txt "RTSP/1.0 403" = false →
      strContains txt "RTSP/1.0 404" = false →
      strContains txt "RTSP/1.0 454" = true →
      probe_rtsp (.response txt) lat = (true, "RTSP 454 Session Not Found", lat)) ∧
    (strContains txt "RTSP/1.0 200" = false →
      strContains txt "RTSP/1.0 401" = false →
      strContains txt "RTSP/1.0 403" = false →
      strContains txt "RTSP/1.0 404" = false →
      strContains txt "RTSP/1.0 454" = false →
      probe_rtsp (.response txt) lat = (false, "RTSP not 200", lat)) ∧
    probe_rtsp .timeout lat = (false, "timeout", lat) ∧
    probe_rtsp (.connError e) lat = (false, "error:" ++ e, lat) := by
  refine ⟨?_, ?_, ?_, ?_, ?_, ?_, rfl, rfl⟩ <;>
    · intros
      simp only [probe_rtsp, *]
      rfl

/-- Scenario A witness: an unauthorized handshake response classifies as
OK with the distinguishing "401 Unauthorized" message. -/
theorem probe_rtsp_classification_witness :
    probe_rtsp (.response "RTSP/1.0 401 Unauthorized\r\nCSeq: 1\r\n\r\n") 7
      = (true, "RTSP 401 Unauthorized", 7) :=
  (probe_rtsp_classification "RTSP/1.0 401 Unauthorized\r\nCSeq: 1\r\n\r\n" "" 7).2.1
    (by decide) (by decide)

/-! ## C3 — HTTP probe -/

/-- C3: the HEAD result is used whenever HEAD does not fail (no matter
what the GET would do); on a HEAD failure the GET result is used; in
both cases the outcome is OK iff the status code is in `[200, 400)`; a
GET timeout classifies FAIL/"timeout", a connection error
FAIL/"error:...". -/
theorem probe_http_spec (c latHead latGet : ℕ) (e : String) (get : GetResult) :
    (probe_http (.status c) get latHead latGet
      = (decide (200 ≤ c ∧ c < 400), "HTTP " ++ toString c, latHead)) ∧
    ((probe_http (.status c) get latHead latGet).1 = true ↔ 200 ≤ c ∧ c < 400) ∧
    (probe_http .failed (.status c) latHead latGet
      = (decide (200 ≤ c ∧ c < 400), "HTTP " ++ toString c, latGet)) ∧
    ((probe_http .failed (.status c) latHead latGet).1 = true ↔
      200 ≤ c ∧ c < 400) ∧
    (probe_http .failed .timeout latHead latGet = (false, "timeout", latGet)) ∧
    (probe_http .failed (.connError e) latHead latGet
      = (false, "error:" ++ e, latGet)) := by
  refine ⟨rfl, ?_, rfl, ?_, rfl, rfl⟩ <;> simp [probe_http]

/-! ## C4 — backoff state update -/

/-- C4 counterexample: on a successful probe at monotonic time 7 the code
sets `backoff_until` to the constant `0`, not to "now" (= 7); it is still
immediately eligible because `0 ≤ now`. -/
theorem apply_outcome_ok_counterexample :
    (apply_outcome (mkStream "cam1" "rtsp://h/s") true 7).backoff_until = 0 ∧
    (apply_outcome (mkStream "cam1" "rtsp://h/s") true 7).backoff_until ≠ 7 ∧
    (apply_outcome (mkStream "cam1" "rtsp://h/s") true 7).backoff_until ≤ 7 := by
  refine ⟨rfl, ?_, ?_⟩ <;> simp [apply_outcome]

/-- C4 (amended): on OK the streak resets to 0 and `eligible_at` is set
to the constant 0 — hence `≤ now` on the nonnegative monotonic clock, so
the endpoint is immediately eligible; on FAIL the streak increments and
`eligible_at = now + min(90, 5 * 2^min(5, streak+1))` (capped exponent,
hard cap, and never in the past). -/
theorem apply_outcome_spec (s : Stream) (now : ℚ) (h : 0 ≤ now) :
    (apply_outcome s true now).fails = 0 ∧
    (apply_outcome s true now).backoff_until = 0 ∧
    (apply_outcome s true now).backoff_until ≤ now ∧
    (apply_outcome s false now).fails = s.fails + 1 ∧
    (apply_outcome s false now).backoff_until
      = now + min 90 (BACKOFF_BASE * 2 ^ min 5 (s.fails + 1)) ∧
    (apply_outcome s false now).backoff_until ≤ now + 90 ∧
    now ≤ (apply_outcome s false now).backoff_until := by
  refine ⟨rfl, rfl, h, rfl, rfl, ?_, ?_⟩
  · simp only [apply_outcome, if_neg Bool.false_ne_true]
    exact add_le_add_left (min_le_left (90 : ℚ) _) now
  · simp only [apply_outcome, if_neg Bool.false_ne_true]
    refine le_add_of_nonneg_right (le_min (by norm_num) ?_)
    rw [BACKOFF_BASE]
    positivity

/-- C4 witness: the amended update evaluated at a concrete endpoint and
time. -/
theorem apply_outcome_spec_witness :
    (0 : ℚ) ≤ 7 ∧
    (apply_outcome (mkStream "cam1" "rtsp://h/s") false 7).fails = 1 ∧
    (apply_outcome (mkStream "cam1" "rtsp://h/s") false 7).backoff_until ≤ 7 + 90 :=
  ⟨by norm_num,
   (apply_outcome_spec (mkStream "cam1" "rtsp://h/s") 7 (by norm_num)).2.2.2.1,
   (apply_outcome_spec (mkStream "cam1" "rtsp://h/s") 7 (by norm_num)).2.2.2.2.2.1⟩

/-! ## C5 — fallback override -/

/-- C5: the frame-fetch fallback runs iff the light probe failed and the
pre-cycle failure streak is at least 3; a fallback success overrides the
cycle outcome (and message) to OK, so the emitted record says "ok";
otherwise the light-probe outcome stands untouched. -/
theorem worker_cycle_fallback_spec (ok fb_ok : Bool) (msg fb_msg : String)
    (fails : ℕ) :
    ((worker_cycle ok msg fails fb_ok fb_msg).fallback_used = true ↔
      ok = false ∧ 3 ≤ fails) ∧
    (ok = false → 3 ≤ fails → fb_ok = true →
      worker_cycle ok msg fails fb_ok fb_msg = ⟨true, fb_msg, true⟩) ∧
    (ok = false → 3 ≤ fails → fb_ok = true →
      record_status (worker_cycle ok msg fails fb_ok fb_msg).ok = "ok") ∧
    (¬(ok = false ∧ 3 ≤ fails) →
      worker_cycle ok msg fails fb_ok fb_msg = ⟨ok, msg, false⟩) := by
  by_cases h3 : 3 ≤ fails <;> cases ok <;> cases fb_ok <;>
    simp [worker_cycle, record_status, h3]

/-- Scenario C witness: after three consecutive failures (streak 3), a
failing light probe plus a succeeding frame-fetch fallback yields a final
OK record. -/
theorem worker_cycle_fallback_witness :
    worker_cycle false "RTSP not 200" 3 true "ok" = ⟨true, "ok", true⟩ ∧
    record_status (worker_cycle false "RTSP not 200" 3 true "ok").ok = "ok" :=
  ⟨(worker_cycle_fallback_spec false true "RTSP not 200" "ok" 3).2.1
      rfl (by norm_num) rfl,
   (worker_cycle_fallback_spec false true "RTSP not 200" "ok" 3).2.2.1
      rfl (by norm_num) rfl⟩

/-! ## C7 — no claiming of the returned endpoint -/

/-- C7 counterexample: on a lane holding one eligible endpoint, `next_rr`
returns it and leaves the lane (endpoint state included) exactly as
before, so an immediately following call by a second worker returns the
very same endpoint — nothing is marked "claimed". -/
theorem next_rr_no_claim_counterexample :
    (next_rr ⟨"rtsp", [mkStream "cam1" "rtsp://h/s"], 0⟩ 5).1
      = some (mkStream "cam1" "rtsp://h/s") ∧
    (next_rr ⟨"rtsp", [mkStream "cam1" "rtsp://h/s"], 0⟩ 5).2
      = ⟨"rtsp", [mkStream "cam1" "rtsp://h/s"], 0⟩ ∧
    (next_rr (next_rr ⟨"rtsp", [mkStream "cam1" "rtsp://h/s"], 0⟩ 5).2 5).1
      = some (mkStream "cam1" "rtsp://h/s") := by
  decide

/-- C7 (amended): `next_rr` does not mark the endpoint it returns: the
lane after the call is unchanged apart from the cursor, so two workers
whose probes overlap can both be handed the same endpoint (the per-lane
lock only serializes the cursor scan itself). -/
theorem next_rr_no_claim_spec (kind : String) (s : Stream) (now : ℚ)
    (h : s.backoff_until ≤ now) :
    (next_rr ⟨kind, [s], 0⟩ now).1 = some s ∧
    (next_rr ⟨kind, [s], 0⟩ now).2 = ⟨kind, [s], 0⟩ ∧
    (next_rr (next_rr ⟨kind, [s], 0⟩ now).2 now).1 = some s := by
  simp [next_rr, next_rr_go, eligible, h]

/-- C7 witness: the no-claiming behaviour at a concrete eligible
endpoint. -/
theorem next_rr_no_claim_spec_witness :
    ((mkStream "c" "rtsp://h/x").backoff_until ≤ (9 : ℚ)) ∧
    (next_rr ⟨"rtsp", [mkStream "c" "rtsp://h/x"], 0⟩ 9).1
      = some (mkStream "c" "rtsp://h/x") :=
  ⟨by norm_num [mkStream],
   (next_rr_no_claim_spec "rtsp" (mkStream "c" "rtsp://h/x") 9
      (by norm_num [mkStream])).1⟩

/-! ## C9 — malformed configuration -/

/-- C9: `read_cfg` has no exception handler, so a malformed config file
makes `reloader_tick` propagate the parse error — the reload coroutine
dies instead of keeping the prior configuration; the guarded loader used
only at startup shows the intended graceful fallback. -/
theorem reloader_malformed_crashes (cfg : Cfg) (state : List Stream)
    (e : String) :
    reloader_tick cfg state (.malformed e) = .error e ∧
    read_cfg (.malformed e) = .error e ∧
    load_config_with_mqtt_support (.malformed e) = ⟨20, "UTC", []⟩ := by
  exact ⟨rfl, rfl, rfl⟩

/-! ## C1 — scheduler sizing -/

/-- C1 counterexample: the code clamps the heartbeat as `max(5, H)` (no
`[2, 3600]` clamp) and puts a `0.05`-second floor under the delay, so at
`N = 1, H = 2` the computed delay is `5`, not the claimed `W / R = 2`
(the worker count differs too, e.g. `N = 7, H = 2` gives `2`, claimed
`4`), and at `N = 3201, H = 5` the delay is the floor `1/20`, not
`W / R`. -/
theorem workers_and_delay_counterexample :
    (workers_and_delay 1 2).2 = 5 ∧ spec_D 1 2 = 2 ∧
    (workers_and_delay 1 2).2 ≠ spec_D 1 2 ∧
    (workers_and_delay 7 2).1 = 2 ∧ spec_W 7 2 = 4 ∧
    (workers_and_delay 7 2).1 ≠ spec_W 7 2 ∧
    (workers_and_delay 3201 5).1 = 32 ∧
    (workers_and_delay 3201 5).2 = 1 / 20 ∧
    (32 : ℚ) / ((3201 : ℚ) / 5) ≠ 1 / 20 := by
  have h15 : ⌈(1 : ℚ) / 5⌉ = 1 := by
    rw [Int.ceil_eq_iff] ; constructor <;> norm_num
  have h12 : ⌈(1 : ℚ) / 2⌉ = 1 := by
    rw [Int.ceil_eq_iff] ; constructor <;> norm_num
  have h75 : ⌈(7 : ℚ) / 5⌉ = 2 := by
    rw [Int.ceil_eq_iff] ; constructor <;> norm_num
  have h72 : ⌈(7 : ℚ) / 2⌉ = 4 := by
    rw [Int.ceil_eq_iff] ; constructor <;> norm_num
  have hbig : ⌈(3201 : ℚ) / 5⌉ = 641 := by
    rw [Int.ceil_eq_iff] ; constructor <;> norm_num
  have hmax52 : (max 5 (2 : ℤ)) = 5 := by norm_num
  have hmax55 : (max 5 (5 : ℤ)) = 5 := by norm_num
  have hclamp2 : (min 3600 (max 2 (2 : ℤ))) = 2 := by norm_num
  refine ⟨?_, ?_, ?_, ?_, ?_, ?_, ?_, ?_, ?_⟩ <;>
    norm_num [workers_and_delay, spec_D, spec_W, spec_R, MAX_WORKERS_PER_TYPE,
      hmax52, hmax55, hclamp2, h15, h12, h75, h72, hbig]

/-- C1 (amended): the effective heartbeat is `max(5, configured)` — a
lower clamp at 5 seconds, no upper clamp; for a nonempty lane the worker
count is `clamp(ceil(N/H), 1, MAX_WORKERS_PER_TYPE)` (hence always in
`[1, 32]`) and the delay is `W / R` floored at `0.05` seconds; an empty
lane gets `0` workers and delay `1`. -/
theorem workers_and_delay_spec (n : ℕ) (heartbeat : ℤ) :
    (n = 0 → workers_and_delay n heartbeat = (0, 1)) ∧
    (0 < n →
      (workers_and_delay n heartbeat).1
        = max 1 (min ⌈(n : ℚ) / ((max 5 heartbeat : ℤ) : ℚ)⌉ MAX_WORKERS_PER_TYPE) ∧
      1 ≤ (workers_and_delay n heartbeat).1 ∧
      (workers_and_delay n heartbeat).1 ≤ MAX_WORKERS_PER_TYPE ∧
      (workers_and_delay n heartbeat).2
        = max (1 / 20 : ℚ) (((workers_and_delay n heartbeat).1 : ℚ)
            / ((n : ℚ) / ((max 5 heartbeat : ℤ) : ℚ)))) := by
  constructor
  · intro h
    simp [workers_and_delay, h]
  · intro h
    have hne : n ≠ 0 := h.ne'
    refine ⟨?_, ?_, ?_, ?_⟩
    · simp [workers_and_delay, if_neg hne]
    · simp only [workers_and_delay, if_neg hne]
      exact le_max_left _ _
    · simp only [workers_and_delay, if_neg hne]
      exact max_le (by norm_num [MAX_WORKERS_PER_TYPE]) (min_le_right _ _)
    · simp [workers_and_delay, if_neg hne]

/-- C1 witness: the amended sizing evaluated at a lane of 3 endpoints
and a configured heartbeat of 2 seconds. -/
theorem workers_and_delay_spec_witness :
    0 < 3 ∧ 1 ≤ (workers_and_delay 3 2).1 ∧
    (workers_and_delay 3 2).1 ≤ MAX_WORKERS_PER_TYPE :=
  ⟨by norm_num, ((workers_and_delay_spec 3 2).2 (by norm_num)).2.1,
   ((workers_and_delay_spec 3 2).2 (by norm_num)).2.2.1⟩

/-! ## C10 — log-table naming -/

/-- Every character the sanitizing map produces is alphanumeric or an
underscore. -/
theorem sanitize_chars (l : List Char) :
    ∀ c ∈ l.map (fun ch => if ch.isAlphanum || ch = '_' then ch else '_'),
      c.isAlphanum = true ∨ c = '_' := by
  intro c hc
  rcases List.mem_map.1 hc with ⟨a, -, rfl⟩
  by_cases h : (a.isAlphanum || a = '_') = true
  · rw [if_pos h]
    simpa using h
  · rw [if_neg h]
    exact Or.inr rfl

/-- The part of `tname` after the fixed `log_` prefix is made of
alphanumerics and underscores only. -/
theorem tname_shape (name : String) :
    ∃ rest : String, tname name = "log_" ++ rest ∧
      ∀ c ∈ rest.data, c.isAlphanum = true ∨ c = '_' := by
  by_cases h : ident_head_ok ((pyStrip name).data.map
      (fun ch => if ch.isAlphanum || ch = '_' then ch else '_')) = true
  · refine ⟨String.mk ((pyStrip name).data.map
      (fun ch => if ch.isAlphanum || ch = '_' then ch else '_')), ?_, ?_⟩
    · simp only [tname, if_pos h]
    · intro c hc
      exact sanitize_chars _ c hc
  · refine ⟨"t_" ++ String.mk ((pyStrip name).data.map
      (fun ch => if ch.isAlphanum || ch = '_' then ch else '_')), ?_, ?_⟩
    · simp only [tname, if_neg h]
    · intro c hc
      rw [String.data_append] at hc
      rcases List.mem_append.1 hc with h1 | h1
      · have : c = 't' ∨ c = '_' := by simpa using h1
        rcases this with rfl | rfl
        · exact Or.inl rfl
        · exact Or.inr rfl
      · exact sanitize_chars _ c h1

/-- C10: the sanitizer is not injective — the distinct endpoint names
"cam 1" and "cam_1" map to the same table identifier `log_cam_1` (and
`monitor.py` and `webgui.py` compute the identical function, so writes
and reads share that one table) — yet for every input the output is
`log_` followed by alphanumerics and underscores only. -/
theorem tname_not_injective_but_wellformed :
    tname "cam 1" = tname "cam_1" ∧
    ("cam 1" : String) ≠ "cam_1" ∧
    tname "cam 1" = "log_cam_1" ∧
    (∀ name : String, tname name = table_name name) ∧
    (∀ name : String, ∃ rest : String,
      tname name = "log_" ++ rest ∧
      ∀ c ∈ rest.data, c.isAlphanum = true ∨ c = '_') :=
  ⟨by decide, by decide, by decide, fun _ => rfl, tname_shape⟩

/-! ## C8 — reconciliation on configuration change -/

/-- The in-place update leaves the endpoint's name unchanged. -/
theorem update_entry_name (u : String) (s : Stream) :
    (update_entry u s).name = s.name := rfl

/-- Name lookup commutes with the in-place update map (the map never
changes names). -/
theorem findName_map_update (state : List Stream) (n m u : String) :
    findName (state.map (fun s => if s.name == n then update_entry u s else s)) m
      = (findName state m).map
          (fun s => if s.name == n then update_entry u s else s) := by
  have hp : ((fun s : Stream => s.name == m)
      ∘ (fun s => if s.name == n then update_entry u s else s))
      = fun s : Stream => s.name == m := by
    funext s
    by_cases hs : (s.name == n) = true
    · show ((if (s.name == n) = true then update_entry u s else s).name == m)
        = (s.name == m)
      rw [if_pos hs, update_entry_name]
    · show ((if (s.name == n) = true then update_entry u s else s).name == m)
        = (s.name == m)
      rw [if_neg hs]
  unfold findName
  rw [List.find?_map, hp]

/-- Name lookup in a state extended by one appended fresh entry. -/
theorem findName_append_single (state : List Stream) (t : Stream) (m : String) :
    findName (state ++ [t]) m
      = (findName state m).or (if t.name == m then some t else none) := by
  unfold findName
  rw [List.find?_append]
  by_cases ht : (t.name == m) = true <;> simp [List.find?, ht]

/-- A successful name lookup returns an entry bearing that name. -/
theorem findName_some_name {l : List Stream} {n : String} {s : Stream}
    (h : findName l n = some s) : s.name = n := by
  unfold findName at h
  have hp := List.find?_some h
  simpa using hp

/-- One iteration of the update loop for name `m` does not change what
lookup finds for a different name `n`. -/
theorem update_step_other (state : List Stream) (m v n : String) (hmn : m ≠ n) :
    findName (if state.any (fun s => s.name == m)
        then state.map (fun s => if s.name == m then update_entry v s else s)
        else state ++ [mkStream m v]) n = findName state n := by
  by_cases hany : (state.any (fun s => s.name == m)) = true
  · rw [if_pos hany, findName_map_update]
    cases hf : findName state n with
    | none => rfl
    | some s =>
      have hsn : s.name = n := findName_some_name hf
      have hne : (s.name == m) = false := by
        rw [hsn]
        simp only [beq_eq_false_iff_ne, ne_eq]
        exact fun e => hmn e.symm
      simp [hne]
      intro e
      exact absurd (hsn.symm.trans e).symm hmn
  · rw [if_neg hany, findName_append_single]
    have : ((mkStream m v).name == n) = false := by
      simp [mkStream, hmn]
    simp [this]

/-- Names never mentioned in the incoming configuration are untouched by
the whole update loop. -/
theorem apply_updates_other (n : String) :
    ∀ (streams : List (String × String)) (state : List Stream),
      n ∉ streams.map Prod.fst →
      findName (apply_updates state streams) n = findName state n := by
  intro streams
  induction streams with
  | nil => intro state _; rfl
  | cons p rest ih =>
    intro state hn
    obtain ⟨m, v⟩ := p
    have hmn : m ≠ n := by
      intro e
      exact hn (by simp [e])
    have hrest : n ∉ rest.map Prod.fst := by
      intro e
      exact hn (by simp [e])
    simp only [apply_updates]
    rw [ih _ hrest, update_step_other state m v n hmn]

/-- For a name present in the (name-unique) incoming configuration, the
update loop yields the in-place update of the old entry when one
existed, and the freshly constructed zero-state entry otherwise. -/
theorem apply_updates_mem (n u : String) :
    ∀ (streams : List (String × String)) (state : List Stream),
      (streams.map Prod.fst).Nodup → (n, u) ∈ streams →
      findName (apply_updates state streams) n
        = some (match findName state n with
                | some s => update_entry u s
                | none => mkStream n u) := by
  intro streams
  induction streams with
  | nil =>
    intro state _ hmem
    cases hmem
  | cons p rest ih =>
    intro state hnd hmem
    obtain ⟨m, v⟩ := p
    have hndr : (rest.map Prod.fst).Nodup := (List.nodup_cons.1 hnd).2
    rcases List.mem_cons.1 hmem with heq | hmem'
    · have hm : m = n := congrArg Prod.fst heq.symm
      have hv : v = u := congrArg Prod.snd heq.symm
      have hrest : n ∉ rest.map Prod.fst := hm ▸ (List.nodup_cons.1 hnd).1
      simp only [apply_updates]
      rw [hm, hv]
      rw [apply_updates_other n rest _ hrest]
      by_cases hany : (state.any (fun s => s.name == n)) = true
      · rw [if_pos hany, findName_map_update]
        have hsome : (findName state n).isSome = true := by
          unfold findName
          rw [List.find?_isSome]
          simpa [List.any_eq_true] using hany
        cases hf : findName state n with
        | none => rw [hf] at hsome; cases hsome
        | some s =>
          have hsn : s.name = n := findName_some_name hf
          simp [hsn]
      · rw [if_neg hany, findName_append_single]
        have hnone : findName state n = none := by
          unfold findName
          rw [List.find?_eq_none]
          intro x hx hpx
          exact hany (List.any_eq_true.2 ⟨x, hx, hpx⟩)
        have : ((mkStream n u).name == n) = true := by simp [mkStream]
        rw [hnone]
        simp [this]
    · have hm_notin : m ∉ rest.map Prod.fst := (List.nodup_cons.1 hnd).1
      have hn_in : n ∈ rest.map Prod.fst :=
        List.mem_map.2 ⟨(n, u), hmem', rfl⟩
      have hmn : m ≠ n := fun e => hm_notin (e ▸ hn_in)
      simp only [apply_updates]
      rw [ih _ hndr hmem', update_step_other state m v n hmn]

/-- Lookup for name `n` passes through a filter whose predicate holds on
every entry named `n`. -/
theorem findName_filter_kept (l : List Stream) (q : Stream → Bool) (n : String)
    (hq : ∀ s : Stream, s.name = n → q s = true) :
    findName (l.filter q) n = findName l n := by
  induction l with
  | nil => rfl
  | cons a t ih =>
    unfold findName at *
    by_cases ha : q a = true
    · rw [List.filter_cons, if_pos ha]
      simp only [List.find?_cons]
      cases hbe : (a.name == n) with
      | true => rfl
      | false => exact ih
    · rw [List.filter_cons, if_neg ha]
      have han : (a.name == n) = false := by
        cases hbe : (a.name == n) with
        | false => rfl
        | true =>
          have hn : a.name = n := by simpa using hbe
          exact absurd (hq a hn) ha
      simp only [List.find?_cons, han]
      exact ih

/-- Lookup for name `n` yields nothing after a filter whose predicate
fails on every entry named `n`. -/
theorem findName_filter_dropped (l : List Stream) (q : Stream → Bool) (n : String)
    (hq : ∀ s : Stream, s.name = n → q s = false) :
    findName (l.filter q) n = none := by
  unfold findName
  rw [List.find?_eq_none]
  intro s hs hpn
  have hqs := List.of_mem_filter hs
  have hn : s.name = n := by simpa using hpn
  rw [hq s hn] at hqs
  cases hqs

/-- C8 counterexample: an endpoint whose URL switches protocol family
("cam" moves from rtsp to http) is updated in place — it keeps its
failure streak (2) and backoff deadline (50) under the new family flag,
instead of being deleted and recreated with fresh state. -/
theorem reconcile_family_counterexample :
    reconcile [⟨"cam", "rtsp://a", true, 2, 50⟩] [("cam", "http://a")]
      = [⟨"cam", "http://a", false, 2, 50⟩] ∧
    ((⟨"cam", "http://a", false, 2, 50⟩ : Stream).is_rtsp
      ≠ (⟨"cam", "rtsp://a", true, 2, 50⟩ : Stream).is_rtsp) ∧
    ((⟨"cam", "http://a", false, 2, 50⟩ : Stream).fails
      = (⟨"cam", "rtsp://a", true, 2, 50⟩ : Stream).fails) ∧
    reconcile [⟨"cam", "rtsp://a", true, 2, 50⟩] [("cam", "http://a")]
      ≠ [mkStream "cam" "http://a"] := by
  decide

/-- C8 (amended): reconciliation keeps the `BackoffState` (streak and
deadline) of every endpoint whose name survives the reload — even when
its URL changes protocol family, in which case the family flag is
rewritten in place rather than the endpoint being deleted and recreated;
names absent from the new configuration are dropped; new names start
with the fresh zero-failure, immediately-eligible state. -/
theorem reconcile_spec (state : List Stream) (streams : List (String × String))
    (hnd : (streams.map Prod.fst).Nodup) (n u : String) :
    (lookupUrl streams n = some u →
      findName (reconcile state streams) n
        = some (match findName state n with
                | some s => update_entry u s
                | none => mkStream n u)) ∧
    (lookupUrl streams n = none → findName (reconcile state streams) n = none) ∧
    (∀ s : Stream, findName state n = some s → lookupUrl streams n = some u →
      findName (reconcile state streams) n
        = some { s with url := u, is_rtsp := url_is_rtsp u } ∧
      Option.map Stream.fails (findName (reconcile state streams) n)
        = some s.fails ∧
      Option.map Stream.backoff_until (findName (reconcile state streams) n)
        = some s.backoff_until) ∧
    (findName state n = none → lookupUrl streams n = some u →
      findName (reconcile state streams) n = some (mkStream n u)) := by
  have hmem : lookupUrl streams n = some u → (n, u) ∈ streams := by
    intro hu
    unfold lookupUrl at hu
    cases hf : streams.find? (fun p => p.1 == n) with
    | none => rw [hf] at hu; cases hu
    | some p =>
      rw [hf] at hu
      have h1 := List.find?_some hf
      have h2 : p ∈ streams := List.mem_of_find?_eq_some hf
      have h3 : p.1 = n := by simpa using h1
      have h4 : p.2 = u := by simpa using hu
      have : p = (n, u) := by
        cases p
        simp_all
      rwa [this] at h2
  have hkept : lookupUrl streams n = some u →
      findName (reconcile state streams) n
        = findName (apply_updates state streams) n := by
    intro hu
    unfold reconcile
    refine findName_filter_kept _ _ _ ?_
    intro s hs
    refine List.any_eq_true.2 ⟨(n, u), hmem hu, ?_⟩
    simp [hs]
  have hmain : lookupUrl streams n = some u →
      findName (reconcile state streams) n
        = some (match findName state n with
                | some s => update_entry u s
                | none => mkStream n u) := by
    intro hu
    rw [hkept hu, apply_updates_mem n u streams state hnd (hmem hu)]
  refine ⟨hmain, ?_, ?_, ?_⟩
  · intro hu
    unfold reconcile
    refine findName_filter_dropped _ _ _ ?_
    intro s hs
    by_contra hc
    have hany := Bool.of_not_eq_false hc
    rcases List.any_eq_true.1 hany with ⟨p, hp, hpq⟩
    have : p.1 = s.name := by simpa using hpq
    have hfind : (streams.find? (fun p => p.1 == n)).isSome = true := by
      rw [List.find?_isSome]
      exact ⟨p, hp, by simp [this, hs]⟩
    unfold lookupUrl at hu
    cases hf : streams.find? (fun p => p.1 == n) with
    | none => rw [hf] at hfind; cases hfind
    | some q => rw [hf] at hu; cases hu
  · intro s hsf hu
    have h1 := hmain hu
    rw [hsf] at h1
    refine ⟨h1, ?_, ?_⟩ <;> rw [h1] <;> rfl
  · intro hsf hu
    have h1 := hmain hu
    rwa [hsf] at h1

/-- C8 witness: a fresh name in the configuration appears in the
reconciled state with zero-failure, immediately-eligible state. -/
theorem reconcile_spec_witness :
    ((([("cam", "rtsp://a")] : List (String × String)).map Prod.fst).Nodup) ∧
    findName (reconcile [] [("cam", "rtsp://a")]) "cam"
      = some (mkStream "cam" "rtsp://a") :=
  ⟨by decide,
   (reconcile_spec [] [("cam", "rtsp://a")] (by decide) "cam" "rtsp://a").2.2.2
     rfl (by decide)⟩

/-! ## C6 — round-robin selection -/

/-- The scan finds nothing iff nothing is eligible. -/
theorem scanElig_eq_none (now : ℚ) (l : List Stream) :
    scanElig now l = none ↔ ∀ s ∈ l, eligible now s = false := by
  induction l with
  | nil => simp [scanElig]
  | cons a t ih =>
    by_cases ha : eligible now a = true
    · simp [scanElig, ha]
    · have ha' : eligible now a = false := by
        cases hb : eligible now a
        · rfl
        · exact absurd hb ha
      simp [scanElig, ha', Option.map_eq_none', ih]

/-- What a successful scan says: the index is in range, it points at the
returned stream, that stream is eligible, and everything strictly before
it is not. -/
theorem scanElig_some_facts (now : ℚ) :
    ∀ (l : List Stream) (s : Stream) (j : ℕ),
      scanElig now l = some (s, j) →
      j < l.length ∧ l[j]? = some s ∧ eligible now s = true ∧
        ∀ x ∈ l.take j, eligible now x = false := by
  intro l
  induction l with
  | nil => intro s j h; cases h
  | cons a t ih =>
    intro s j h
    by_cases ha : eligible now a = true
    · rw [scanElig, if_pos ha] at h
      cases h
      refine ⟨by simp, by simp, ha, by simp⟩
    · have ha' : eligible now a = false := by
        cases hb : eligible now a
        · rfl
        · exact absurd hb ha
      rw [scanElig, if_neg (by simp [ha'])] at h
      cases hs : scanElig now t with
      | none => rw [hs] at h; cases h
      | some p =>
        obtain ⟨p1, p2⟩ := p
        rw [hs] at h
        cases h
        obtain ⟨hlt, hget, helig, htake⟩ := ih p1 p2 hs
        refine ⟨by simpa using Nat.succ_lt_succ hlt, ?_, helig, ?_⟩
        · simpa [List.getElem?_cons_succ] using hget
        · intro x hx
          rw [List.take_succ_cons] at hx
          rcases List.mem_cons.1 hx with rfl | hx'
          · exact ha'
          · exact htake x hx'

/-- A successful scan splits the list at the found index. -/
theorem scanElig_decomp (now : ℚ) (l : List Stream) (s : Stream) (j : ℕ)
    (h : scanElig now l = some (s, j)) :
    l = l.take j ++ s :: l.drop (j + 1) := by
  obtain ⟨hlt, hget, -, -⟩ := scanElig_some_facts now l s j h
  have hs : l[j] = s := by
    rw [List.getElem?_eq_getElem hlt] at hget
    exact Option.some.inj hget
  calc l = l.take j ++ l.drop j := (List.take_append_drop j l).symm
  _ = l.take j ++ s :: l.drop (j + 1) := by
      rw [← List.getElem_cons_drop l j hlt, hs]

/-- The stream a scan returns is the first eligible one. -/
theorem scanElig_fst (now : ℚ) (l : List Stream) :
    (scanElig now l).map Prod.fst = l.find? (eligible now) := by
  induction l with
  | nil => rfl
  | cons a t ih =>
    by_cases ha : eligible now a = true
    · simp [scanElig, List.find?_cons, ha]
    · have ha' : eligible now a = false := by
        cases hb : eligible now a
        · rfl
        · exact absurd hb ha
      simp only [scanElig]
      rw [if_neg (by simp [ha'])]
      rw [Option.map_map]
      have hcomp : (Prod.fst ∘ fun p : Stream × ℕ => (p.1, p.2 + 1))
          = Prod.fst := rfl
      rw [hcomp, ih]
      simp [List.find?_cons, ha']

/-- The cursor loop of `next_rr`, characterised: with fuel `f ≤ n` and a
valid cursor, it behaves as a scan over the first `f` entries of the
cursor-rotated lane, and the cursor ends just past the found entry (or
`f` further on when nothing was found). -/
theorem next_rr_go_spec (items : List Stream) (now : ℚ) :
    ∀ (fuel i : ℕ), i < items.length → fuel ≤ items.length →
      next_rr_go items now i fuel
        = (match scanElig now ((items.rotate i).take fuel) with
           | some (s, j) => (some s, (i + j + 1) % items.length)
           | none => (none, (i + fuel) % items.length)) := by
  intro fuel
  induction fuel with
  | zero =>
    intro i hi _
    simp [next_rr_go, scanElig, Nat.mod_eq_of_lt hi]
  | succ fuel ih =>
    intro i hi hf
    have hlen : 0 < items.length := lt_of_le_of_lt (Nat.zero_le i) hi
    have hget : items[i]? = some items[i] := List.getElem?_eq_getElem hi
    have hhead : (items.rotate i).head? = some items[i] := by
      rw [List.head?_rotate hi, hget]
    obtain ⟨t, ht⟩ : ∃ t, items.rotate i = items[i] :: t := by
      cases hr : items.rotate i with
      | nil => rw [hr] at hhead; cases hhead
      | cons x xs =>
        rw [hr] at hhead
        exact ⟨xs, by rw [Option.some.inj hhead]⟩
    have htlen : t.length = items.length - 1 := by
      have hl := List.length_rotate items i
      rw [ht] at hl
      simp only [List.length_cons] at hl
      omega
    simp only [next_rr_go, hget]
    by_cases he : eligible now items[i] = true
    · rw [if_pos he, ht, List.take_succ_cons]
      rw [scanElig, if_pos he]
    · have he' : eligible now items[i] = false := by
        cases hb : eligible now items[i]
        · rfl
        · exact absurd hb he
      rw [if_neg (by simp [he'])]
      have hi' : (i + 1) % items.length < items.length := Nat.mod_lt _ hlen
      have hf' : fuel ≤ items.length := Nat.le_of_succ_le hf
      rw [ih ((i + 1) % items.length) hi' hf']
      have hrot : items.rotate ((i + 1) % items.length) = t ++ [items[i]] := by
        rw [List.rotate_mod]
        rw [← List.rotate_rotate items i 1, ht]
        rw [List.rotate_eq_drop_append_take (by simp : 1 ≤ (items[i] :: t).length)]
        simp
      rw [hrot]
      have htake : (t ++ [items[i]]).take fuel = t.take fuel :=
        List.take_append_of_le_length (by omega)
      rw [htake, ht, List.take_succ_cons]
      rw [scanElig, if_neg (by simp [he'])]
      cases hs : scanElig now (t.take fuel) with
      | none =>
        simp only [Option.map_none']
        have hcur : ((i + 1) % items.length + fuel) % items.length
            = (i + (fuel + 1)) % items.length := by
          rw [Nat.mod_add_mod]
          congr 1
          omega
        rw [hcur]
      | some p =>
        obtain ⟨s, j⟩ := p
        simp only [Option.map_some']
        have hcur : ((i + 1) % items.length + j + 1) % items.length
            = (i + (j + 1) + 1) % items.length := by
          rw [Nat.add_assoc, Nat.mod_add_mod]
          congr 1
          omega
        rw [hcur]

/-- `next_rr` on a lane with a valid cursor: a scan of the
cursor-rotated item list, the cursor moving just past the selection. -/
theorem next_rr_eq (lane : Lane) (now : ℚ) (hi : lane.i < lane.items.length) :
    next_rr lane now
      = (match scanElig now (lane.items.rotate lane.i) with
         | some (s, j) =>
           (some s, { lane with i := (lane.i + j + 1) % lane.items.length })
         | none => (none, lane)) := by
  have hne : ¬(lane.items.isEmpty = true) := by
    cases h : lane.items with
    | nil => rw [h] at hi; cases hi
    | cons a t => simp [h]
  have htk : (lane.items.rotate lane.i).take lane.items.length
      = lane.items.rotate lane.i := by
    rw [← List.length_rotate lane.items lane.i]
    exact List.take_length _
  unfold next_rr
  rw [if_neg hne]
  rw [next_rr_go_spec lane.items now lane.items.length lane.i hi (le_refl _)]
  rw [htk]
  cases hs : scanElig now (lane.items.rotate lane.i) with
  | none =>
    have hcur : (lane.i + lane.items.length) % lane.items.length = lane.i := by
      rw [Nat.add_mod_right, Nat.mod_eq_of_lt hi]
    simp only [hcur]
  | some p =>
    obtain ⟨s, j⟩ := p
    rfl

/-- One selection step, seen on the eligible sublist: the selected
stream heads the eligible entries of the cursor-rotated lane, and the
new cursor's rotated eligible entries are that list rotated one step. -/
theorem filter_rotate_step (items : List Stream) (now : ℚ) (i : ℕ)
    (s : Stream) (j : ℕ)
    (h : scanElig now (items.rotate i) = some (s, j)) :
    ((items.rotate i).filter (eligible now))
      = s :: (((items.rotate i).drop (j + 1)).filter (eligible now)) ∧
    ((items.rotate ((i + j + 1) % items.length)).filter (eligible now))
      = (((items.rotate i).filter (eligible now)).rotate 1) := by
  obtain ⟨hlt, hget, helig, htake⟩ := scanElig_some_facts now _ s j h
  have hdecomp := scanElig_decomp now _ s j h
  have hfilter_take :
      ((items.rotate i).take j).filter (eligible now) = [] := by
    rw [List.filter_eq_nil_iff]
    intro x hx
    rw [htake x hx]
    exact Bool.false_ne_true
  have hfil : ((items.rotate i).filter (eligible now))
      = s :: (((items.rotate i).drop (j + 1)).filter (eligible now)) := by
    conv_lhs => rw [hdecomp]
    rw [List.filter_append, hfilter_take, List.filter_cons, if_pos helig]
    simp
  refine ⟨hfil, ?_⟩
  have hjlen : j + 1 ≤ (items.rotate i).length := hlt
  have h1 : items.rotate ((i + j + 1) % items.length)
      = (items.rotate i).rotate (j + 1) := by
    rw [List.rotate_mod, List.rotate_rotate, Nat.add_assoc]
  have htake1 : (items.rotate i).take (j + 1)
      = (items.rotate i).take j ++ [s] := by
    rw [List.take_succ, hget]
    rfl
  rw [h1, List.rotate_eq_drop_append_take hjlen, htake1]
  rw [List.filter_append, List.filter_append, hfilter_take]
  rw [hfil]
  rw [List.rotate_eq_drop_append_take (by simp : 1 ≤ (s :: (((items.rotate i).drop (j + 1)).filter (eligible now))).length)]
  simp [helig]

/-- Running `k` successive selections collects the first `k` eligible
entries (in cursor order) of the lane, each as `some`. -/
theorem rrRun_spec (now : ℚ) :
    ∀ (k : ℕ) (lane : Lane), lane.i < lane.items.length →
      k ≤ ((lane.items.rotate lane.i).filter (eligible now)).length →
      (rrRun now lane k).1
        = (((lane.items.rotate lane.i).filter (eligible now)).take k).map some := by
  intro k
  induction k with
  | zero => intro lane _ _; rfl
  | succ k ih =>
    intro lane hi hk
    have hlen : 0 < lane.items.length := lt_of_le_of_lt (Nat.zero_le _) hi
    obtain ⟨⟨s, j⟩, hs⟩ :
        ∃ p, scanElig now (lane.items.rotate lane.i) = some p := by
      cases h : scanElig now (lane.items.rotate lane.i) with
      | none =>
        exfalso
        have hall := (scanElig_eq_none now _).1 h
        have hnil : (lane.items.rotate lane.i).filter (eligible now) = [] := by
          rw [List.filter_eq_nil_iff]
          intro x hx
          rw [hall x hx]
          exact Bool.false_ne_true
        rw [hnil] at hk
        simp at hk
      | some p => exact ⟨p, rfl⟩
    obtain ⟨hfil, hrotfil⟩ := filter_rotate_step lane.items now lane.i s j hs
    rw [rrRun]
    rw [next_rr_eq lane now hi, hs]
    have hi' : ((lane.i + j + 1) % lane.items.length) < lane.items.length :=
      Nat.mod_lt _ hlen
    have hk' : k ≤ ((lane.items.rotate
        ((lane.i + j + 1) % lane.items.length)).filter (eligible now)).length := by
      rw [hrotfil, List.length_rotate]
      omega
    have hstep := ih { lane with i := (lane.i + j + 1) % lane.items.length }
      hi' hk'
    simp only at hstep
    simp only [hstep]
    rw [hrotfil, hfil]
    have hkF : k ≤ (((lane.items.rotate lane.i).drop (j + 1)).filter
        (eligible now)).length := by
      rw [hfil] at hk
      simpa using hk
    have hrot1 : ((s :: (((lane.items.rotate lane.i).drop (j + 1)).filter
          (eligible now))).rotate 1)
        = (((lane.items.rotate lane.i).drop (j + 1)).filter (eligible now))
            ++ [s] := by
      rw [List.rotate_eq_drop_append_take
        (by simp : 1 ≤ (s :: (((lane.items.rotate lane.i).drop (j + 1)).filter (eligible now))).length)]
      simp
    rw [hrot1]
    rw [List.take_append_of_le_length hkF, List.take_succ_cons]
    simp

/-- C6: each `next_rr` call returns the first endpoint from the cursor
onward whose backoff deadline has passed (`none` exactly when the lane
is empty or everything is backed off — an empty lane returns `none`
untouched), and over one full traversal (as many calls as there are
eligible endpoints) each non-backed-off endpoint is selected exactly
once — the selections are precisely the eligible endpoints, without
repetition — before any endpoint repeats. -/
theorem next_rr_round_robin_spec (lane : Lane) (now : ℚ)
    (hi : lane.i < lane.items.length)
    (hnd : (lane.items.map Stream.name).Nodup) :
    ((next_rr lane now).1 = (lane.items.rotate lane.i).find? (eligible now)) ∧
    ((next_rr lane now).1 = none ↔ ∀ s ∈ lane.items, eligible now s = false) ∧
    (∀ l : Lane, l.items = [] → next_rr l now = (none, l)) ∧
    ((rrRun now lane
        (((lane.items.rotate lane.i).filter (eligible now)).length)).1
      = ((lane.items.rotate lane.i).filter (eligible now)).map some) ∧
    ((lane.items.rotate lane.i).filter (eligible now)).Nodup ∧
    (∀ s ∈ lane.items, eligible now s = true →
      s ∈ (lane.items.rotate lane.i).filter (eligible now)) := by
  have hfind : (next_rr lane now).1
      = (lane.items.rotate lane.i).find? (eligible now) := by
    rw [next_rr_eq lane now hi, ← scanElig_fst now (lane.items.rotate lane.i)]
    cases hs : scanElig now (lane.items.rotate lane.i) with
    | none => rfl
    | some p =>
      obtain ⟨s, j⟩ := p
      rfl
  refine ⟨hfind, ?_, ?_, ?_, ?_, ?_⟩
  · rw [hfind, List.find?_eq_none]
    constructor
    · intro h s hs
      have hmem : s ∈ lane.items.rotate lane.i := List.mem_rotate.2 hs
      cases hb : eligible now s with
      | false => rfl
      | true => exact absurd hb (h s hmem)
    · intro h s hs hb
      rw [h s (List.mem_rotate.1 hs)] at hb
      cases hb
  · intro l hl
    unfold next_rr
    rw [hl]
    rfl
  · have := rrRun_spec now
      (((lane.items.rotate lane.i).filter (eligible now)).length) lane hi
      (le_refl _)
    rwa [List.take_length] at this
  · exact ((List.nodup_rotate).2 (List.Nodup.of_map _ hnd)).filter _
  · intro s hs he
    rw [List.mem_filter]
    exact ⟨List.mem_rotate.2 hs, he⟩

/-- C6 witness: the single-call characterisation on a concrete two-entry
lane with one backed-off endpoint. -/
theorem next_rr_round_robin_spec_witness :
    ((⟨"rtsp", [⟨"a", "u", true, 0, 0⟩, ⟨"b", "v", true, 0, 10⟩], 0⟩ : Lane).i
      < (⟨"rtsp", [⟨"a", "u", true, 0, 0⟩, ⟨"b", "v", true, 0, 10⟩], 0⟩ : Lane).items.length) ∧
    (((⟨"rtsp", [⟨"a", "u", true, 0, 0⟩, ⟨"b", "v", true, 0, 10⟩], 0⟩ : Lane).items.map
        Stream.name).Nodup) ∧
    ((next_rr ⟨"rtsp", [⟨"a", "u", true, 0, 0⟩, ⟨"b", "v", true, 0, 10⟩], 0⟩ 5).1
      = ((⟨"rtsp", [⟨"a", "u", true, 0, 0⟩, ⟨"b", "v", true, 0, 10⟩], 0⟩ : Lane).items.rotate
          (⟨"rtsp", [⟨"a", "u", true, 0, 0⟩, ⟨"b", "v", true, 0, 10⟩], 0⟩ : Lane).i).find?
          (eligible 5)) :=
  ⟨by decide, by decide,
   (next_rr_round_robin_spec
      ⟨"rtsp", [⟨"a", "u", true, 0, 0⟩, ⟨"b", "v", true, 0, 10⟩], 0⟩ 5
      (by decide) (by decide)).1⟩

end StreamPulse
